import Mathlib

/-!
Verification development for the MPoL RML-imaging core.

Part 1 embeds `mpol/images.py` (the `MpolImage` model: constructor,
`precache_interpolation`, `forward`).  Machine reals are modelled as `ℚ`.
Collaborators that live in modules outside the sampled sources
(`mpol.gridding`, `mpol.constants`) are either modelled from the spec
(`fftspace`, numpy frequency helpers) or kept as explicit function
parameters (`calcMatrices`, `corrfun_mat`, `arcsec`), so every theorem
quantifies over all implementations satisfying the spec's interface.

Part 2 embeds the training loop, `test` and `cross_validate` from
`docs/large-tutorials/HD143006_part_2.py` as a state machine over abstract
model / optimizer / dataset / loss collaborators.
-/

/-- Python runtime errors that `MpolImage.__init__` / `forward` can surface.
`assertionError` models a failing `assert` statement (with its message);
`zeroDivisionError` models `ZeroDivisionError` (division by zero at
`self.npix * self.cell_size / self.npix` when `npix = 0`);
`runtimeError` models the `RuntimeError` torch raises when allocating a
tensor with negative dimensions (`torch.ones(npix, npix)` for `npix < 0`);
`attributeError` models `AttributeError` (attribute access such as
`self.C_re` before `precache_interpolation` ran). -/
inductive PyError where
  | assertionError (msg : String)
  | zeroDivisionError
  | runtimeError
  | attributeError (attr : String)
deriving DecidableEq, Repr

/-- True exactly for the constructor's explicit parameter-validation failures
(the two `assert` statements); this is what the spec's `ConfigurationError`
names. -/
def PyError.isValidationFailure : PyError → Bool
  | .assertionError _ => true
  | _ => false

/-- The portion of a `UVDataset` that `mpol/images.py` reads: the u and v
sample coordinates (`dataset.uu`, `dataset.vv`), one entry per visibility
sample, in dataset order. -/
structure UVDataset where
  uu : List ℚ
  vv : List ℚ
deriving DecidableEq, Inhabited

/-- A sparse matrix in COO form: models `torch.sparse.DoubleTensor(i, v, shape)`
built in `precache_interpolation` from the `scipy` COO matrices returned by
`gridding.calc_matrices`.  `entries` lists `(row, col, value)` triples. -/
structure SparseCOO where
  rows : ℕ
  cols : ℕ
  entries : List (ℕ × ℕ × ℚ)
deriving DecidableEq, Inhabited

/-- Sparse-dense product `torch.sparse.mm(C, x)[:, 0]`: for each output row,
sum the stored entries times the matching dense-vector components. -/
def SparseCOO.mulVec (A : SparseCOO) (x : List ℚ) : List ℚ :=
  (List.range A.rows).map fun i =>
    ((A.entries.filter fun e => e.1 == i).map fun e => e.2.2 * x.getD e.2.1 0).sum

/-- Elementwise product of two matrices: `self._image * self.corrfun`. -/
def elemMul (x y : List (List ℚ)) : List (List ℚ) :=
  List.zipWith (fun r s => List.zipWith (fun p q => p * q) r s) x y

/-- Scalar times a complex-valued matrix (`dll ** 2 * torch.rfft(...)`); torch
stores the complex result as a trailing real/imaginary pair, and scalar
multiplication scales both components. -/
def scaleC (s : ℚ) (v : List (List (ℚ × ℚ))) : List (List (ℚ × ℚ)) :=
  v.map fun row => row.map fun p => (s * p.1, s * p.2)

/-- Matrix of ones: `torch.ones(r, c)`. -/
def onesMat (r c : ℕ) : List (List ℚ) :=
  (List.range r).map fun _ => (List.range c).map fun _ => (1 : ℚ)

/-- Modelled from the spec: `gridding.fftspace(width, N)` (module not among the
sampled sources).  Per spec §4.1 the image-axis coordinates are symmetric
about zero with spacing `cell_size = 2*width/N`; for even `N` the point at
index `N/2` lands on zero. -/
def fftspace (width : ℚ) (n : ℕ) : List ℚ :=
  (List.range n).map fun (i : ℕ) => -width + (2 * width / (n : ℚ)) * (i : ℚ)

/-- Models `np.fft.rfftfreq(n, d)` (numpy, documented semantics): the one-sided
frequency axis `[0, 1, ..., n/2] / (d*n)`. -/
def rfftfreq (n : ℕ) (d : ℚ) : List ℚ :=
  (List.range (n / 2 + 1)).map fun (i : ℕ) => (i : ℚ) / (d * (n : ℚ))

/-- Models `np.fft.fftfreq(n, d)` (numpy, documented semantics): the two-sided
frequency axis `[0, 1, ..., (n-1)/2, -(n/2), ..., -1] / (d*n)`; the entry at
index `i` is `i/(d*n)` for `i ≤ (n-1)/2` and `(i-n)/(d*n)` afterwards. -/
def fftfreq (n : ℕ) (d : ℚ) : List ℚ :=
  (List.range n).map fun (i : ℕ) =>
    (if i ≤ (n - 1) / 2 then (i : ℚ) else (i : ℚ) - (n : ℚ)) / (d * (n : ℚ))

/-- Models `np.fft.fftshift` on a 1-D array: roll by `n/2`, i.e. swap the two halves
for even length. -/
def fftshift (l : List ℚ) : List ℚ :=
  l.drop (l.length - l.length / 2) ++ l.take (l.length - l.length / 2)

/-- State of an `MpolImage` after a successful `__init__`: grid metadata, the
trainable pixel array `_image`, the precomputed apodization matrix `corrfun`,
and the optional cached interpolation operator pair `(C_re, C_im)`. -/
structure MpolImage where
  npix : ℕ
  cell_size : ℚ
  ll : List ℚ
  dll : ℚ
  us : List ℚ
  vs : List ℚ
  _image : List (List ℚ)
  corrfun : List (List ℚ)
  cache : Option (SparseCOO × SparseCOO)
deriving DecidableEq, Inhabited

/-- Embedding of `MpolImage.precache_interpolation(dataset)`: calls
`gridding.calc_matrices(dataset.uu, dataset.vv, self.us, self.vs)` and stores
the resulting sparse operator pair as `self.C_re`, `self.C_im`.
`calcMatrices` is the interpolation engine, passed explicitly because
`mpol.gridding` is not among the sampled sources. -/
def MpolImage.precache_interpolation
    (calcMatrices : List ℚ → List ℚ → List ℚ → List ℚ → SparseCOO × SparseCOO)
    (m : MpolImage) (dataset : UVDataset) : MpolImage :=
  { m with cache := some (calcMatrices dataset.uu dataset.vv m.us m.vs) }

/-- The diagnostic printed by `__init__` when no dataset is supplied. -/
def precacheMsg : String :=
  "Be sure to precalculate your interpolation matrices with your dataset before begining optimization."

/-- The attribute computations of `MpolImage.__init__` (lines 20-55 of
`images.py`), for an `npix` that survived the validity checks: grid axes,
differentials, frequency axes, the all-ones trainable image and the
apodization matrix, with the interpolation cache still empty. -/
def MpolImage.base (arcsec : ℚ)
    (corrfun_mat : List ℚ → List ℚ → List (List ℚ))
    (npix : ℤ) (cell_size : ℚ) : MpolImage :=
  let n : ℕ := npix.toNat
  let cell : ℚ := cell_size * arcsec
  let img_radius : ℚ := cell * ((n / 2 : ℕ) : ℚ)
  let ll : List ℚ := fftspace img_radius n
  { npix := n
    cell_size := cell
    ll := ll
    dll := (n : ℚ) * cell / (n : ℚ)
    us := (rfftfreq n ((2 * img_radius) / (n : ℚ))).map fun x => x * 1e-3
    vs := (fftfreq n ((2 * img_radius) / (n : ℚ))).map fun x => x * 1e-3
    _image := onesMat n n
    corrfun := corrfun_mat (fftshift ll) (fftshift ll)
    cache := none }

/-- Embedding of `MpolImage.__init__(npix, cell_size, dataset=None)`.  Here `arcsec` is the
radians-per-arcsecond constant from `mpol.constants` (modelled from the spec
as an explicit positive parameter), `calcMatrices` models
`gridding.calc_matrices` and `corrfun_mat` models `gridding.corrfun_mat`
(both from the spec's Gridding/Interpolation Engine interface, §4.2).
Returns the constructed model together with the list of printed diagnostics,
or the Python error the constructor raises. -/
def MpolImage.init (arcsec : ℚ)
    (calcMatrices : List ℚ → List ℚ → List ℚ → List ℚ → SparseCOO × SparseCOO)
    (corrfun_mat : List ℚ → List ℚ → List (List ℚ))
    (npix : ℤ) (cell_size : ℚ) (dataset : Option UVDataset) :
    Except PyError (MpolImage × List String) :=
  if npix % 2 ≠ 0 then .error (.assertionError "npix must be even (for now)")
  else if cell_size ≤ 0 then .error (.assertionError "cell_size must be positive (arcseconds)")
  else if npix = 0 then .error .zeroDivisionError
  else if npix < 0 then .error .runtimeError
  else
    let m : MpolImage := MpolImage.base arcsec corrfun_mat npix cell_size
    match dataset with
    | some d => .ok (m.precache_interpolation calcMatrices d, [])
    | none => .ok (m, [precacheMsg])

/-- Embedding of `MpolImage.forward()`: multiply `_image` elementwise by `corrfun`, apply
the external 2-D real-input FFT (`torch.rfft`, kept as the explicit parameter
`rfft`), scale by `dll ** 2`, split real/imaginary planes, flatten row-major
(`torch.reshape(_, (-1, 1))`) and apply the cached sparse operators.  The
result pairs the predicted real/imaginary visibility vectors with the
post-call model state; accessing `self.C_re` before precaching raises
`AttributeError`. -/
def MpolImage.forward (rfft : List (List ℚ) → List (List (ℚ × ℚ)))
    (m : MpolImage) : Except PyError (List ℚ × List ℚ) × MpolImage :=
  match m.cache with
  | none => (.error (.attributeError "C_re"), m)
  | some Cs =>
    let vis := scaleC (m.dll ^ 2) (rfft (elemMul m._image m.corrfun))
    let vis_re := vis.map fun row => row.map Prod.fst
    let vis_im := vis.map fun row => row.map Prod.snd
    let vr := vis_re.flatten
    let vi := vis_im.flatten
    (.ok (Cs.1.mulVec vr, Cs.2.mulVec vi), m)

/-- Modelled from the spec (§4.3, operation `forward()`): the four-step
pipeline in the spec's own order — (1) apodize, (2) Fourier transform scaled
by the square of the pixel differential, (3) split real/imaginary planes,
(4) apply the cached sparse interpolation operators to the flattened
planes. -/
def specForwardPipeline (rfft : List (List ℚ) → List (List (ℚ × ℚ)))
    (dll : ℚ) (img cf : List (List ℚ)) (Cre Cim : SparseCOO) : List ℚ × List ℚ :=
  let apodized := elemMul img cf
  let transformed := scaleC (dll ^ 2) (rfft apodized)
  let realPlane := (transformed.map fun row => row.map Prod.fst).flatten
  let imagPlane := (transformed.map fun row => row.map Prod.snd).flatten
  (Cre.mulVec realPlane, Cim.mulVec imagPlane)

/-- A trivially correct interpolation engine (empty sparse operators with the
spec-mandated shape: one row per sample, one column per dense grid node),
used to instantiate theorems at concrete inputs. -/
def calcTriv (uu _vv _us _vs : List ℚ) : SparseCOO × SparseCOO :=
  (⟨uu.length, _vs.length * _us.length, []⟩, ⟨uu.length, _vs.length * _us.length, []⟩)

/-- A trivial apodization-matrix builder for concrete instantiations. -/
def cfTriv (_x _y : List ℚ) : List (List ℚ) := []

/-- Scalar type modelling Python floats for the divergence analysis: `val =
none` represents a non-finite value (NaN / overflow), which every arithmetic
operation propagates and which no operation in the training loop raises on. -/
structure PyFloat where
  val : Option ℚ
deriving DecidableEq, Repr

/-- The canonical non-finite value. -/
def PyFloat.nan : PyFloat := ⟨none⟩

/-- Addition: any non-finite operand makes the result non-finite. -/
def PyFloat.add (a b : PyFloat) : PyFloat :=
  ⟨a.val.bind fun x => b.val.map fun y => x + y⟩

/-- Multiplication: any non-finite operand makes the result non-finite. -/
def PyFloat.mul (a b : PyFloat) : PyFloat :=
  ⟨a.val.bind fun x => b.val.map fun y => x * y⟩

instance : Add PyFloat := ⟨PyFloat.add⟩

instance : Mul PyFloat := ⟨PyFloat.mul⟩

instance : Zero PyFloat := ⟨⟨some 0⟩⟩

/-- The hyperparameter dictionary `config` of the tutorial: learning rate,
the four regularization weights, the entropy prior intensity, and the
iteration count `epochs`. -/
structure TrainConfig (A : Type) where
  lr : A
  lambda_sparsity : A
  lambda_TV : A
  entropy : A
  prior_intensity : A
  TSV : A
  epochs : ℕ

/-- The external collaborators the tutorial's training code calls into:
the `SimpleNet` model (`forward`, `icube.sky_cube`, `train()`/`eval()` mode
switches), the torch optimizer (`zero_grad`, `step`, Adam construction),
the autograd `backward`, the loss library `mpol.losses`
(`nll_gridded`, `sparsity`, `TV_image`, `entropy`, `TSV`), and the
`GriddedResidualConnector`.  `M` is the model-parameter state, `O` the
optimizer state, `V` predicted visibilities, `S` the sky cube, `D` a
gridded dataset, `R` the residual-connector state, `A` the scalar type.
All are abstract: the loss functions live in `mpol.losses` (modelled from
the spec as pure scalar functions, §4.5) and the rest are torch/library
code external to the repository. -/
structure RMLParts (M O V S D R A : Type) where
  modelForward : M → V
  skyCube : M → S
  nll_gridded : V → D → A
  sparsity : S → A
  TV_image : S → A
  entropy : S → A → A
  TSV : S → A
  zero_grad : O → O
  backward : M → A → M
  step : M → O → M × O
  newOptimizer : A → M → O
  residualsInit : M → D → R
  runResiduals : R → R
  modelTrain : M → M
  modelEval : M → M

/-- Events sent to the observability sink (`SummaryWriter`): `add_scalar`
with (name, value, iteration) and `add_figure` with (name, iteration); the
rendered figure itself is external. -/
inductive WEvent (A : Type) where
  | scalar (name : String) (value : A) (iter : ℕ)
  | figure (name : String) (iter : ℕ)
deriving DecidableEq, Repr

/-- Instrumentation markers for one optimizer-loop iteration, in the order
the loop body executes them: `model.forward()`, the loss expression,
`loss.backward()`, `optimizer.step()`. -/
inductive TrainEvent where
  | forwardEval (i : ℕ)
  | lossCompute (i : ℕ)
  | backwardStep (i : ℕ)
  | optStep (i : ℕ)
deriving DecidableEq, Repr

/-- State threaded through the training loop: model parameters, optimizer
state, the residual connector local to `train`, the event log received by
the observability sink, the Python variable `loss` after the most recent
iteration (`none` before any iteration ran, where returning `loss.item()`
would raise `NameError`), and the instrumentation trace. -/
structure TrainState (M O R A : Type) where
  model : M
  opt : O
  residuals : R
  writerLog : List (WEvent A)
  lastLoss : Option A
  trace : List TrainEvent

variable {M O V S D R A : Type}

/-- One iteration of the `for iteration in range(config["epochs"])` loop in
`train`: `optimizer.zero_grad()`; `vis = model.forward()`;
`sky_cube = model.icube.sky_cube`; the loss as the weighted sum of the NLL
and the four regularizers; the conditional logging block (which also runs
`residuals()` inside `log_figure`); `loss.backward()`; `optimizer.step()`. -/
def trainStep [Add A] [Mul A] (P : RMLParts M O V S D R A) (dset : D)
    (cfg : TrainConfig A) (hasWriter : Bool) (logevery : ℕ)
    (st : TrainState M O R A) (i : ℕ) : TrainState M O R A :=
  let opt1 := P.zero_grad st.opt
  let vis := P.modelForward st.model
  let sky := P.skyCube st.model
  let loss := P.nll_gridded vis dset
      + cfg.lambda_sparsity * P.sparsity sky
      + cfg.lambda_TV * P.TV_image sky
      + cfg.entropy * P.entropy sky cfg.prior_intensity
      + cfg.TSV * P.TSV sky
  let doLog := i % logevery == 0 && hasWriter
  let model1 := P.backward st.model loss
  let ms := P.step model1 opt1
  { model := ms.1
    opt := ms.2
    residuals := if doLog then P.runResiduals st.residuals else st.residuals
    writerLog := if doLog then
        st.writerLog ++ [WEvent.scalar "loss" loss i, WEvent.figure "image" i]
      else st.writerLog
    lastLoss := some loss
    trace := st.trace ++ [TrainEvent.forwardEval i, TrainEvent.lossCompute i,
      TrainEvent.backwardStep i, TrainEvent.optStep i] }

/-- Embedding of `train(model, dataset, optimizer, config, writer=None, logevery=50)`:
switch the model to training mode, build the residual connector, run the
loop for exactly `config["epochs"]` iterations, and end with the final
state (the Python function returns `loss.item()`, i.e. `.lastLoss`). -/
def train [Add A] [Mul A] (P : RMLParts M O V S D R A) (model : M) (dset : D)
    (opt : O) (cfg : TrainConfig A) (hasWriter : Bool) (logevery : ℕ) :
    TrainState M O R A :=
  let model := P.modelTrain model
  (List.range cfg.epochs).foldl (trainStep P dset cfg hasWriter logevery)
    { model := model, opt := opt, residuals := P.residualsInit model dset
      writerLog := [], lastLoss := none, trace := [] }

/-- Embedding of `test(model, dataset)`: switch to eval mode, forward-evaluate, and score
with `losses.nll_gridded` alone — no regularization terms.  Returns the
post-call model together with the held-out score. -/
def test [Add A] [Mul A] (P : RMLParts M O V S D R A) (model : M) (dset : D) :
    M × A :=
  let model := P.modelEval model
  (model, P.nll_gridded (P.modelForward model) dset)

/-- Models `np.sum` over a Python list of scalars. -/
def sumPy [Add A] [Zero A] (l : List A) : A := l.foldl (fun a b => a + b) 0

/-- The body of the `for k_fold, (train_dset, test_dset) in enumerate(...)`
loop in `cross_validate`: reload the reference state (torch's
`load_state_dict` replaces the full parameter state), build a fresh Adam
optimizer, train on the fold's training subset, and append the held-out
`test` score. -/
def cvFold [Add A] [Mul A] (P : RMLParts M O V S D R A) (ref : M)
    (cfg : TrainConfig A) (hasWriter : Bool) (logevery : ℕ)
    (acc : M × List A) (fold : D × D) : M × List A :=
  let model := ref
  let opt := P.newOptimizer cfg.lr model
  let ts := train P model fold.1 opt cfg hasWriter logevery
  let scored := test P ts.model fold.2
  (scored.1, acc.2 ++ [scored.2])

/-- Embedding of `cross_validate(model, config, k_fold_datasets, MODEL_PATH, writer=None)`:
for each `(train_dset, test_dset)` fold, reload the saved reference state
(`model.load_state_dict(torch.load(MODEL_PATH))` replaces the full parameter
state with `ref`), build a fresh Adam optimizer, run `train` on the fold's
training subset, score the held-out subset with `test`, and finally return
`np.sum` of the collected scores.  (The optional final
`writer.add_scalar("Cross Validation", ...)` only writes to the sink.) -/
def cross_validate [Add A] [Mul A] [Zero A] (P : RMLParts M O V S D R A)
    (model0 : M) (ref : M) (cfg : TrainConfig A) (folds : List (D × D))
    (hasWriter : Bool) (logevery : ℕ) : A :=
  let res := folds.foldl (cvFold P ref cfg hasWriter logevery)
    (model0, ([] : List A))
  sumPy res.2

/-- The per-iteration instrumentation footprint of the loop body. -/
def iterEvents (i : ℕ) : List TrainEvent :=
  [TrainEvent.forwardEval i, TrainEvent.lossCompute i,
   TrainEvent.backwardStep i, TrainEvent.optStep i]

/-- A one-sample dataset for concrete instantiations. -/
def dEx : UVDataset := ⟨[0], [0]⟩

/-- A concrete stand-in for `torch.rfft` at instantiation points: embeds the
real input as the real plane. -/
def rfftEx (mat : List (List ℚ)) : List (List (ℚ × ℚ)) :=
  mat.map fun row => row.map fun x => (x, 0)

/-- A concrete precached model state for instantiating the purity theorem. -/
def mEx8 : MpolImage :=
  { npix := 2, cell_size := 1, ll := [-1, 0], dll := 1
    us := [0, 1/2000], vs := [0, -1/2000]
    _image := [[1, 1], [1, 1]], corrfun := [[1, 1], [1, 1]]
    cache := some (⟨1, 4, [(0, 0, 2)]⟩, ⟨1, 4, []⟩) }

/-- Concrete collaborator instantiation used to exercise the training loop on
a run whose loss becomes non-finite: the model state counts completed
iterations, and the NLL returns NaN from iteration 1 onwards. -/
def exP : RMLParts ℕ Unit ℕ Unit Unit Unit PyFloat :=
  { modelForward := fun m => m
    skyCube := fun _ => ()
    nll_gridded := fun v _ => if 1 ≤ v then PyFloat.nan else ⟨some 0⟩
    sparsity := fun _ => ⟨some 0⟩
    TV_image := fun _ => ⟨some 0⟩
    entropy := fun _ _ => ⟨some 0⟩
    TSV := fun _ => ⟨some 0⟩
    zero_grad := fun o => o
    backward := fun m _ => m
    step := fun m _ => (m + 1, ())
    newOptimizer := fun _ _ => ()
    residualsInit := fun _ _ => ()
    runResiduals := fun r => r
    modelTrain := fun m => m
    modelEval := fun m => m }

/-- A three-epoch configuration over the NaN-aware scalar type. -/
def exCfg : TrainConfig PyFloat :=
  { lr := ⟨some 0⟩, lambda_sparsity := ⟨some 0⟩, lambda_TV := ⟨some 0⟩
    entropy := ⟨some 0⟩, prior_intensity := ⟨some 0⟩, TSV := ⟨some 0⟩
    epochs := 3 }

/-! ## Theorems -/

/-- Helper: lengths and entries of `torch.ones(r, c)`. -/
theorem onesMat_shape (r c : ℕ) :
    (onesMat r c).length = r ∧
      ∀ row ∈ onesMat r c, row.length = c ∧ ∀ x ∈ row, x = (1 : ℚ) := by
  refine ⟨by simp [onesMat], ?_⟩
  intro row hrow
  simp only [onesMat, List.mem_map] at hrow
  obtain ⟨i, -, rfl⟩ := hrow
  simp

/-- Helper: a successful `__init__` forces the validity conditions and
determines the resulting model and diagnostics. -/
theorem MpolImage.init_ok {a : ℚ}
    {cM : List ℚ → List ℚ → List ℚ → List ℚ → SparseCOO × SparseCOO}
    {cf : List ℚ → List ℚ → List (List ℚ)} {npix : ℤ} {c : ℚ}
    {ds : Option UVDataset} {m : MpolImage} {w : List String}
    (h : MpolImage.init a cM cf npix c ds = .ok (m, w)) :
    npix % 2 = 0 ∧ 0 < c ∧ 0 < npix ∧
      ((ds = none ∧ m = MpolImage.base a cf npix c ∧ w = [precacheMsg]) ∨
        (∃ d, ds = some d ∧
          m = (MpolImage.base a cf npix c).precache_interpolation cM d ∧ w = [])) := by
  unfold MpolImage.init at h
  split_ifs at h with h1 h2 h3 h4
  refine ⟨by omega, lt_of_not_le h2, by omega, ?_⟩
  cases ds with
  | none =>
    simp only [Except.ok.injEq, Prod.mk.injEq] at h
    exact Or.inl ⟨rfl, h.1.symm, h.2.symm⟩
  | some d =>
    simp only [Except.ok.injEq, Prod.mk.injEq] at h
    exact Or.inr ⟨d, rfl, h.1.symm, h.2.symm⟩

/-- C4 (amended): construction fails with the constructor's validation error
(the `assert`, the spec's `ConfigurationError`) exactly when `npix` is odd or
`cell_size ≤ 0`; an even non-positive `npix` passes validation and the
constructor instead fails further down with a different error
(`ZeroDivisionError` for `npix = 0`, the tensor-allocation `RuntimeError`
for `npix < 0`); construction succeeds exactly when `npix` is even and
positive and `cell_size` positive. -/
theorem claim_C4_amended (a : ℚ)
    (cM : List ℚ → List ℚ → List ℚ → List ℚ → SparseCOO × SparseCOO)
    (cf : List ℚ → List ℚ → List (List ℚ)) (npix : ℤ) (c : ℚ)
    (ds : Option UVDataset) :
    ((∃ m w, MpolImage.init a cM cf npix c ds = .ok (m, w)) ↔
      npix % 2 = 0 ∧ 0 < npix ∧ 0 < c)
    ∧ ((∃ msg, MpolImage.init a cM cf npix c ds = .error (.assertionError msg)) ↔
      npix % 2 ≠ 0 ∨ c ≤ 0)
    ∧ (npix % 2 = 0 → 0 < c → npix = 0 →
      MpolImage.init a cM cf npix c ds = .error .zeroDivisionError)
    ∧ (npix % 2 = 0 → 0 < c → npix < 0 →
      MpolImage.init a cM cf npix c ds = .error .runtimeError) := by
  unfold MpolImage.init
  split_ifs with h1 h2 h3 h4
  · refine ⟨?_, ?_, ?_, ?_⟩ <;> simp_all
  · have hc : ¬ (0 < c) := not_lt.mpr h2
    refine ⟨?_, ?_, ?_, ?_⟩ <;> simp_all
  · refine ⟨?_, ?_, ?_, ?_⟩ <;> simp_all
  · have := h4
    refine ⟨?_, ?_, ?_, ?_⟩ <;> cases ds <;> simp_all <;> omega
  · have hc : 0 < c := lt_of_not_le h2
    refine ⟨?_, ?_, ?_, ?_⟩ <;> cases ds <;> simp_all <;> omega

/-- C4 counterexample: at `npix = -2`, `cell_size = 1` the constructor's
validation passes (even though `npix` is non-positive) and construction fails
with the downstream `RuntimeError`, not with the validation
(configuration) error the claim requires. -/
theorem claim_C4_counterexample :
    MpolImage.init 1 calcTriv cfTriv (-2) 1 none = .error .runtimeError
    ∧ PyError.runtimeError.isValidationFailure = false := by
  exact ⟨rfl, rfl⟩

/-- C4 witness: concrete instances of the amended theorem — `npix = 4` builds
successfully, `npix = 3` (odd) hits the validation error, `npix = 0` the
division-by-zero, `npix = -2` the allocation error. -/
theorem claim_C4_witness :
    (∃ m w, MpolImage.init 1 calcTriv cfTriv 4 1 none = .ok (m, w))
    ∧ (∃ msg, MpolImage.init 1 calcTriv cfTriv 3 1 none = .error (.assertionError msg))
    ∧ MpolImage.init 1 calcTriv cfTriv 0 1 none = .error .zeroDivisionError
    ∧ MpolImage.init 1 calcTriv cfTriv (-2) 1 none = .error .runtimeError :=
  ⟨(claim_C4_amended 1 calcTriv cfTriv 4 1 none).1.mpr (by norm_num),
   (claim_C4_amended 1 calcTriv cfTriv 3 1 none).2.1.mpr (by norm_num),
   (claim_C4_amended 1 calcTriv cfTriv 0 1 none).2.2.1 (by norm_num) (by norm_num) rfl,
   (claim_C4_amended 1 calcTriv cfTriv (-2) 1 none).2.2.2 (by norm_num) (by norm_num) (by norm_num)⟩

/-- C10: immediately after any successful construction the trainable pixel
array `_image` is `torch.ones(npix, npix)` — an `npix × npix` matrix with
every entry equal to `1` (not zero), so a first forward evaluation predicts
the visibilities of a uniform unit-intensity image. -/
theorem claim_C10 (a : ℚ)
    (cM : List ℚ → List ℚ → List ℚ → List ℚ → SparseCOO × SparseCOO)
    (cf : List ℚ → List ℚ → List (List ℚ)) (npix : ℤ) (c : ℚ)
    (ds : Option UVDataset) (m : MpolImage) (w : List String)
    (h : MpolImage.init a cM cf npix c ds = .ok (m, w)) :
    m._image = onesMat npix.toNat npix.toNat
    ∧ m._image.length = npix.toNat
    ∧ ∀ row ∈ m._image, row.length = npix.toNat ∧ ∀ x ∈ row, x = (1 : ℚ) := by
  obtain ⟨-, -, -, hcases⟩ := MpolImage.init_ok h
  have him : m._image = onesMat npix.toNat npix.toNat := by
    rcases hcases with ⟨-, rfl, -⟩ | ⟨d, -, rfl, -⟩ <;>
      simp [MpolImage.base, MpolImage.precache_interpolation]
  refine ⟨him, ?_, ?_⟩
  · rw [him]; exact (onesMat_shape _ _).1
  · rw [him]; exact (onesMat_shape _ _).2

/-- C10 witness: the amended-free claim applied at `npix = 2`,
`cell_size = 1`, `arcsec = 1`, no dataset. -/
theorem claim_C10_witness :
    (MpolImage.base 1 cfTriv 2 1)._image = onesMat (2 : ℤ).toNat (2 : ℤ).toNat
    ∧ ((MpolImage.base 1 cfTriv 2 1)._image).length = (2 : ℤ).toNat
    ∧ ∀ row ∈ (MpolImage.base 1 cfTriv 2 1)._image,
        row.length = (2 : ℤ).toNat ∧ ∀ x ∈ row, x = (1 : ℚ) :=
  claim_C10 1 calcTriv cfTriv 2 1 none _ _ rfl

/-- C5: constructing without a dataset emits exactly the "precache your
interpolation matrices" diagnostic, leaves the cache empty, and any forward
call before precaching fails with the missing-attribute error (`self.C_re`,
the spec's `NotPrecachedError`); constructing with a dataset emits no
diagnostic, precaches the interpolation operators eagerly, and forward
succeeds for every FFT backend. -/
theorem claim_C5 (a : ℚ)
    (cM : List ℚ → List ℚ → List ℚ → List ℚ → SparseCOO × SparseCOO)
    (cf : List ℚ → List ℚ → List (List ℚ)) (npix : ℤ) (c : ℚ) (d : UVDataset)
    (mA mB : MpolImage) (wA wB : List String)
    (hA : MpolImage.init a cM cf npix c none = .ok (mA, wA))
    (hB : MpolImage.init a cM cf npix c (some d) = .ok (mB, wB)) :
    (wA = [precacheMsg] ∧ mA.cache = none ∧
      ∀ rfft, (mA.forward rfft).1 = .error (.attributeError "C_re"))
    ∧ (wB = [] ∧ mB.cache = some (cM d.uu d.vv mB.us mB.vs) ∧
      ∀ rfft, ∃ re im, (mB.forward rfft).1 = .ok (re, im)) := by
  obtain ⟨-, -, -, hcA⟩ := MpolImage.init_ok hA
  obtain ⟨-, -, -, hcB⟩ := MpolImage.init_ok hB
  rcases hcA with ⟨-, rfl, rfl⟩ | ⟨d', hd', -⟩; swap
  · exact absurd hd' (by simp)
  rcases hcB with ⟨hnone, -, -⟩ | ⟨d', hd', rfl, rfl⟩
  · exact absurd hnone (by simp)
  obtain rfl : d' = d := by injection hd' with h; exact h.symm
  refine ⟨⟨rfl, ?_, ?_⟩, ⟨rfl, ?_, ?_⟩⟩
  · simp [MpolImage.base]
  · intro rfft
    simp [MpolImage.forward, MpolImage.base]
  · simp [MpolImage.precache_interpolation, MpolImage.base]
  · intro rfft
    simp [MpolImage.forward, MpolImage.precache_interpolation]

/-- C5 witness: the claim applied at `npix = 2`, `cell_size = 1`,
`arcsec = 1`, with and without the one-sample dataset. -/
theorem claim_C5_witness :
    ([precacheMsg] = [precacheMsg] ∧ (MpolImage.base 1 cfTriv 2 1).cache = none ∧
      ∀ rfft, ((MpolImage.base 1 cfTriv 2 1).forward rfft).1 = .error (.attributeError "C_re"))
    ∧ (([] : List String) = [] ∧
      ((MpolImage.base 1 cfTriv 2 1).precache_interpolation calcTriv dEx).cache =
        some (calcTriv dEx.uu dEx.vv
          ((MpolImage.base 1 cfTriv 2 1).precache_interpolation calcTriv dEx).us
          ((MpolImage.base 1 cfTriv 2 1).precache_interpolation calcTriv dEx).vs) ∧
      ∀ rfft, ∃ re im,
        (((MpolImage.base 1 cfTriv 2 1).precache_interpolation calcTriv dEx).forward rfft).1 =
          .ok (re, im)) :=
  claim_C5 1 calcTriv cfTriv 2 1 dEx _ _ _ _ rfl rfl

/-- C8: forward evaluation is pure — with a bound (precached) dataset it
succeeds, returns the model state unchanged (the method never assigns an
attribute), and two consecutive evaluations with no intervening change
produce identical results; in particular the pixel array, the apodization
matrix and the cached interpolation operators are untouched. -/
theorem claim_C8 (rfft : List (List ℚ) → List (List (ℚ × ℚ))) (m : MpolImage)
    (Cs : SparseCOO × SparseCOO) (h : m.cache = some Cs) :
    (m.forward rfft).2 = m
    ∧ (m.forward rfft).1 = (((m.forward rfft).2).forward rfft).1
    ∧ ((m.forward rfft).2)._image = m._image
    ∧ ((m.forward rfft).2).corrfun = m.corrfun
    ∧ ((m.forward rfft).2).cache = m.cache
    ∧ ∃ re im, (m.forward rfft).1 = .ok (re, im) := by
  have hpost : (m.forward rfft).2 = m := by
    unfold MpolImage.forward
    cases hm : m.cache <;> simp
  refine ⟨hpost, by rw [hpost], by rw [hpost], by rw [hpost], by rw [hpost], ?_⟩
  simp [MpolImage.forward, h]

/-- C8 witness: the purity theorem at a concrete precached model and a
concrete FFT backend. -/
theorem claim_C8_witness :
    (mEx8.forward rfftEx).2 = mEx8
    ∧ (mEx8.forward rfftEx).1 = (((mEx8.forward rfftEx).2).forward rfftEx).1
    ∧ ((mEx8.forward rfftEx).2)._image = mEx8._image
    ∧ ((mEx8.forward rfftEx).2).corrfun = mEx8.corrfun
    ∧ ((mEx8.forward rfftEx).2).cache = mEx8.cache
    ∧ ∃ re im, (mEx8.forward rfftEx).1 = .ok (re, im) :=
  claim_C8 rfftEx mEx8 (⟨1, 4, [(0, 0, 2)]⟩, ⟨1, 4, []⟩) rfl

/-- Helper: the sparse-dense product has one output entry per operator row. -/
theorem SparseCOO.mulVec_length (A : SparseCOO) (x : List ℚ) :
    (A.mulVec x).length = A.rows := by
  simp [SparseCOO.mulVec]

/-- C1: with precached operators, `forward()` is exactly the spec's four-step
pipeline — apodize by `corrfun`, real-input 2-D FFT scaled by `dll ** 2`
(the square of the pixel differential `dll`, i.e. the pixel differential
area), split real/imaginary planes, apply the cached sparse operators to the
flattened planes — and yields one real and one imaginary prediction entry
per visibility sample, in dataset order (row `j` of the operators is sample
`j`, per the interpolation-engine contract `h1`/`h2`). -/
theorem claim_C1 (a : ℚ)
    (cM : List ℚ → List ℚ → List ℚ → List ℚ → SparseCOO × SparseCOO)
    (cf : List ℚ → List ℚ → List (List ℚ)) (npix : ℤ) (c : ℚ) (d : UVDataset)
    (rfft : List (List ℚ) → List (List (ℚ × ℚ))) (m : MpolImage)
    (w : List String)
    (h : MpolImage.init a cM cf npix c (some d) = .ok (m, w))
    (h1 : (cM d.uu d.vv m.us m.vs).1.rows = d.uu.length)
    (h2 : (cM d.uu d.vv m.us m.vs).2.rows = d.uu.length) :
    (m.forward rfft).1 = .ok (specForwardPipeline rfft m.dll m._image m.corrfun
        (cM d.uu d.vv m.us m.vs).1 (cM d.uu d.vv m.us m.vs).2)
    ∧ ∃ re im, (m.forward rfft).1 = .ok (re, im)
        ∧ re.length = d.uu.length ∧ im.length = d.uu.length := by
  obtain ⟨-, -, -, hc⟩ := MpolImage.init_ok h
  rcases hc with ⟨hn, -, -⟩ | ⟨d', hd, rfl, rfl⟩
  · exact absurd hn (by simp)
  obtain rfl : d = d' := Option.some.inj hd
  have hfwd : ((((MpolImage.base a cf npix c).precache_interpolation cM d)).forward rfft).1
      = .ok (specForwardPipeline rfft
          (((MpolImage.base a cf npix c).precache_interpolation cM d)).dll
          (((MpolImage.base a cf npix c).precache_interpolation cM d))._image
          (((MpolImage.base a cf npix c).precache_interpolation cM d)).corrfun
          (cM d.uu d.vv (((MpolImage.base a cf npix c).precache_interpolation cM d)).us
            (((MpolImage.base a cf npix c).precache_interpolation cM d)).vs).1
          (cM d.uu d.vv (((MpolImage.base a cf npix c).precache_interpolation cM d)).us
            (((MpolImage.base a cf npix c).precache_interpolation cM d)).vs).2) := by
    simp [MpolImage.forward, MpolImage.precache_interpolation, specForwardPipeline]
  refine ⟨hfwd, _, _, hfwd, ?_, ?_⟩
  · simp [specForwardPipeline, SparseCOO.mulVec_length, h1]
  · simp [specForwardPipeline, SparseCOO.mulVec_length, h2]

/-- C1 witness: the pipeline equality and per-sample lengths at `npix = 2`,
`cell_size = 1`, `arcsec = 1`, the one-sample dataset and a concrete FFT
backend. -/
theorem claim_C1_witness :
    ((((MpolImage.base 1 cfTriv 2 1).precache_interpolation calcTriv dEx)).forward rfftEx).1
      = .ok (specForwardPipeline rfftEx
          (((MpolImage.base 1 cfTriv 2 1).precache_interpolation calcTriv dEx)).dll
          (((MpolImage.base 1 cfTriv 2 1).precache_interpolation calcTriv dEx))._image
          (((MpolImage.base 1 cfTriv 2 1).precache_interpolation calcTriv dEx)).corrfun
          (calcTriv dEx.uu dEx.vv
            (((MpolImage.base 1 cfTriv 2 1).precache_interpolation calcTriv dEx)).us
            (((MpolImage.base 1 cfTriv 2 1).precache_interpolation calcTriv dEx)).vs).1
          (calcTriv dEx.uu dEx.vv
            (((MpolImage.base 1 cfTriv 2 1).precache_interpolation calcTriv dEx)).us
            (((MpolImage.base 1 cfTriv 2 1).precache_interpolation calcTriv dEx)).vs).2)
    ∧ ∃ re im,
        ((((MpolImage.base 1 cfTriv 2 1).precache_interpolation calcTriv dEx)).forward rfftEx).1
          = .ok (re, im) ∧ re.length = dEx.uu.length ∧ im.length = dEx.uu.length :=
  claim_C1 1 calcTriv cfTriv 2 1 dEx rfftEx _ _ rfl (by rfl) (by rfl)

/-- Helper: reading an in-range element of a mapped range. -/
theorem rangeMap_getD (k : ℕ) (f : ℕ → ℚ) (i : ℕ) (hi : i < k) :
    ((List.range k).map f).getD i 0 = f i := by
  rw [List.getD_eq_getElem _ _ (by simpa using hi)]
  simp

/-- Helper: the grid fields of a constructed model do not depend on whether a
dataset was precached. -/
theorem MpolImage.init_grid_fields {a : ℚ}
    {cM : List ℚ → List ℚ → List ℚ → List ℚ → SparseCOO × SparseCOO}
    {cf : List ℚ → List ℚ → List (List ℚ)} {npix : ℤ} {c : ℚ}
    {ds : Option UVDataset} {m : MpolImage} {w : List String}
    (h : MpolImage.init a cM cf npix c ds = .ok (m, w)) :
    m.us = (MpolImage.base a cf npix c).us
    ∧ m.vs = (MpolImage.base a cf npix c).vs
    ∧ m.dll = (MpolImage.base a cf npix c).dll
    ∧ m.npix = (MpolImage.base a cf npix c).npix := by
  obtain ⟨-, -, -, hc⟩ := MpolImage.init_ok h
  rcases hc with ⟨-, rfl, -⟩ | ⟨d, -, rfl, -⟩ <;>
    simp [MpolImage.precache_interpolation]

/-- C3 (amended): the Fourier-axis arrays constructed by the image model have
grid spacing `1e-3 / (npix * cell_size_rad)` — the Nyquist spacing
`1/(npix*cell_size)` expressed in the stored kilolambda units — where
`cell_size_rad = cell_size * arcsec` is the pixel size in radians.  Adjacent
entries of `us` always differ by exactly that amount; adjacent entries of
`vs` differ by it within the non-negative-frequency block and within the
negative-frequency block (the `fftfreq` wrap between the two blocks is the
single exception).  Equivalently, the product of the image-axis spacing
`dll` and the Fourier-axis spacing equals `1e-3 / npix`. -/
theorem claim_C3_amended (a : ℚ)
    (cM : List ℚ → List ℚ → List ℚ → List ℚ → SparseCOO × SparseCOO)
    (cf : List ℚ → List ℚ → List (List ℚ)) (npix : ℤ) (c : ℚ)
    (ds : Option UVDataset) (m : MpolImage) (w : List String) (ha : 0 < a)
    (h : MpolImage.init a cM cf npix c ds = .ok (m, w)) :
    (∀ i : ℕ, i + 1 < m.us.length →
      m.us.getD (i + 1) 0 - m.us.getD i 0 = 1e-3 / ((npix : ℚ) * (c * a)))
    ∧ (∀ i : ℕ, i + 1 < m.npix / 2 →
      m.vs.getD (i + 1) 0 - m.vs.getD i 0 = 1e-3 / ((npix : ℚ) * (c * a)))
    ∧ (∀ i : ℕ, m.npix / 2 ≤ i → i + 1 < m.vs.length →
      m.vs.getD (i + 1) 0 - m.vs.getD i 0 = 1e-3 / ((npix : ℚ) * (c * a)))
    ∧ m.dll * (m.us.getD 1 0 - m.us.getD 0 0) = 1e-3 / (npix : ℚ) := by
  obtain ⟨heven, hcpos, hpos, -⟩ := MpolImage.init_ok h
  obtain ⟨hus, hvs, hdll, hnp⟩ := MpolImage.init_grid_fields h
  set n : ℕ := npix.toNat with hn
  have hnQ : ((n : ℕ) : ℚ) = (npix : ℚ) := by
    exact_mod_cast Int.toNat_of_nonneg hpos.le
  have hn0 : (0 : ℕ) < n := by omega
  have hnne : ((n : ℕ) : ℚ) ≠ 0 := Nat.cast_ne_zero.mpr (by omega)
  have hnev : n % 2 = 0 := by omega
  have hhalf : ((n / 2 : ℕ) : ℚ) * 2 = (n : ℚ) := by
    exact_mod_cast congrArg (Nat.cast : ℕ → ℚ) (by omega : n / 2 * 2 = n)
  -- the common denominator of all frequency entries
  set D : ℚ := 2 * ((c * a) * ((n / 2 : ℕ) : ℚ)) / (n : ℚ) * (n : ℚ) with hD
  have hDval : D = (npix : ℚ) * (c * a) := by
    rw [hD, div_mul_cancel₀ _ hnne, ← hnQ, ← hhalf]
    ring
  have husf : m.us = ((List.range (n / 2 + 1)).map
      (fun (i : ℕ) => (i : ℚ) / D)).map (fun x => x * 1e-3) := by
    rw [hus, hD]; rfl
  have hvsf : m.vs = ((List.range n).map
      (fun i => (if i ≤ (n - 1) / 2 then (i : ℚ) else (i : ℚ) - (n : ℚ)) / D)).map
      (fun x => x * 1e-3) := by
    rw [hvs, hD]; rfl
  have huslen : m.us.length = n / 2 + 1 := by rw [husf]; simp
  have hvslen : m.vs.length = n := by rw [hvsf]; simp
  have hnpix2 : m.npix / 2 = n / 2 := by
    rw [hnp]; rfl
  have hgetus : ∀ i : ℕ, i < n / 2 + 1 → m.us.getD i 0 = (i : ℚ) / D * 1e-3 := by
    intro i hi
    rw [husf, List.map_map, rangeMap_getD _ _ _ hi]
    rfl
  have hgetvs : ∀ i : ℕ, i < n →
      m.vs.getD i 0 = (if i ≤ (n - 1) / 2 then (i : ℚ) else (i : ℚ) - (n : ℚ)) / D * 1e-3 := by
    intro i hi
    rw [hvsf, List.map_map, rangeMap_getD _ _ _ hi]
    rfl
  have hstep : ∀ x : ℚ, (x + 1) / D * 1e-3 - x / D * 1e-3 = 1e-3 / D := by
    intro x
    rw [← sub_mul, div_sub_div_same]
    have hone : x + 1 - x = 1 := by ring
    rw [hone, one_div_mul_eq_div]
  refine ⟨?_, ?_, ?_, ?_⟩
  · intro i hi
    rw [huslen] at hi
    rw [hgetus (i + 1) hi, hgetus i (by omega), ← hDval]
    push_cast
    exact hstep (i : ℚ)
  · intro i hi
    rw [hnpix2] at hi
    have hb1 : i ≤ (n - 1) / 2 := by omega
    have hb2 : i + 1 ≤ (n - 1) / 2 := by omega
    rw [hgetvs (i + 1) (by omega), hgetvs i (by omega), if_pos hb1, if_pos hb2, ← hDval]
    push_cast
    exact hstep (i : ℚ)
  · intro i hlo hhi
    rw [hnpix2] at hlo
    rw [hvslen] at hhi
    have hb1 : ¬ (i ≤ (n - 1) / 2) := by omega
    have hb2 : ¬ (i + 1 ≤ (n - 1) / 2) := by omega
    rw [hgetvs (i + 1) (by omega), hgetvs i (by omega), if_neg hb1, if_neg hb2, ← hDval]
    have hsh : ((i : ℚ) + 1 - (n : ℚ)) = ((i : ℚ) - (n : ℚ)) + 1 := by ring
    push_cast
    rw [hsh]
    exact hstep ((i : ℚ) - (n : ℚ))
  · have hdllv : m.dll = c * a := by
      rw [hdll]
      show (n : ℚ) * (c * a) / (n : ℚ) = c * a
      rw [mul_comm, mul_div_assoc, div_self hnne, mul_one]
    have hsp : m.us.getD 1 0 - m.us.getD 0 0 = 1e-3 / ((npix : ℚ) * (c * a)) := by
      rw [hgetus 1 (by omega), hgetus 0 (by omega), ← hDval]
      have h01 : ((1 : ℕ) : ℚ) = (0 : ℚ) + 1 := by norm_num
      rw [h01]
      have h00 : ((0 : ℕ) : ℚ) = (0 : ℚ) := by norm_num
      rw [h00]
      exact hstep 0
    rw [hdllv, hsp, ← hnQ]
    have hca : c * a ≠ 0 := by positivity
    field_simp
    ring

/-- C3 counterexample: at `npix = 4`, `cell_size = 1`, `arcsec = 1` the
constructed Fourier axis `us` is `[0, 1/4000, 1/2000]` — consecutive spacing
`1/4000 = 1e-3/(npix*cell_size)` (the `* 1e-3` kilolambda conversion is
applied to the stored arrays) — which is not the claimed
`1/(npix*cell_size) = 1/4`. -/
theorem claim_C3_counterexample :
    (MpolImage.init 1 calcTriv cfTriv 4 1 none).toOption.map (fun p => p.1.us)
      = some [0, 1/4000, 1/2000]
    ∧ ((1/4000 : ℚ) - 0 = 1e-3 / ((4 : ℚ) * (1 * 1)))
    ∧ ¬ ((1/4000 : ℚ) - 0 = 1 / ((4 : ℚ) * (1 * 1))) := by
  refine ⟨?_, by norm_num, by norm_num⟩
  have hinit : MpolImage.init 1 calcTriv cfTriv 4 1 none
      = .ok (MpolImage.base 1 cfTriv 4 1, [precacheMsg]) := rfl
  rw [hinit]
  have ht : (4 : ℤ).toNat = 4 := rfl
  norm_num [MpolImage.base, rfftfreq, List.map_map, Except.toOption, ht,
    List.range_succ]

/-- C3 witness: the amended spacing law applied at `npix = 4`,
`cell_size = 1`, `arcsec = 1`. -/
theorem claim_C3_witness :
    (∀ i : ℕ, i + 1 < (MpolImage.base 1 cfTriv 4 1).us.length →
      (MpolImage.base 1 cfTriv 4 1).us.getD (i + 1) 0
          - (MpolImage.base 1 cfTriv 4 1).us.getD i 0
        = 1e-3 / (((4 : ℤ) : ℚ) * (1 * 1)))
    ∧ (∀ i : ℕ, i + 1 < (MpolImage.base 1 cfTriv 4 1).npix / 2 →
      (MpolImage.base 1 cfTriv 4 1).vs.getD (i + 1) 0
          - (MpolImage.base 1 cfTriv 4 1).vs.getD i 0
        = 1e-3 / (((4 : ℤ) : ℚ) * (1 * 1)))
    ∧ (∀ i : ℕ, (MpolImage.base 1 cfTriv 4 1).npix / 2 ≤ i →
        i + 1 < (MpolImage.base 1 cfTriv 4 1).vs.length →
      (MpolImage.base 1 cfTriv 4 1).vs.getD (i + 1) 0
          - (MpolImage.base 1 cfTriv 4 1).vs.getD i 0
        = 1e-3 / (((4 : ℤ) : ℚ) * (1 * 1)))
    ∧ (MpolImage.base 1 cfTriv 4 1).dll *
        ((MpolImage.base 1 cfTriv 4 1).us.getD 1 0
          - (MpolImage.base 1 cfTriv 4 1).us.getD 0 0) = 1e-3 / ((4 : ℤ) : ℚ) :=
  claim_C3_amended 1 calcTriv cfTriv 4 1 none _ _ (by norm_num) rfl

/-- Helper: folding the loop body over any index list appends exactly the
four per-iteration events for each index, regardless of the collaborators,
the configuration, the parameter values, or any loss value encountered. -/
theorem foldl_trainStep_trace [Add A] [Mul A] (P : RMLParts M O V S D R A)
    (dset : D) (cfg : TrainConfig A) (hw : Bool) (le : ℕ) :
    ∀ (l : List ℕ) (st : TrainState M O R A),
      (l.foldl (trainStep P dset cfg hw le) st).trace
        = st.trace ++ l.flatMap iterEvents := by
  intro l
  induction l with
  | nil => intro st; simp
  | cons x xs ih =>
    intro st
    rw [List.foldl_cons, ih]
    simp [trainStep, iterEvents]

/-- Helper: four events per loop index. -/
theorem iterEvents_flatMap_length :
    ∀ l : List ℕ, (l.flatMap iterEvents).length = 4 * l.length := by
  intro l
  induction l with
  | nil => simp
  | cons x xs ih =>
    simp only [List.flatMap_cons, List.length_append, List.length_cons, ih]
    simp [iterEvents]
    omega

/-- C6: for every collaborator set, parameter state and configuration with
iteration count `epochs`, the training loop executes exactly `epochs`
iterations, each consisting of a forward evaluation, a loss computation (the
weighted sum of the NLL and the configured regularizer terms, as written in
`trainStep`), a gradient computation and a parameter-update step, in that
order, with no early stopping or convergence detection under any parameter
or loss values (the theorem quantifies over all loss functions). -/
theorem claim_C6 [Add A] [Mul A] (P : RMLParts M O V S D R A) (model : M)
    (dset : D) (opt : O) (cfg : TrainConfig A) (hasWriter : Bool)
    (logevery : ℕ) :
    (train P model dset opt cfg hasWriter logevery).trace
      = (List.range cfg.epochs).flatMap iterEvents
    ∧ (train P model dset opt cfg hasWriter logevery).trace.length
      = 4 * cfg.epochs := by
  have h := foldl_trainStep_trace P dset cfg hasWriter logevery
    (List.range cfg.epochs)
    { model := P.modelTrain model, opt := opt
      residuals := P.residualsInit (P.modelTrain model) dset
      writerLog := [], lastLoss := none, trace := [] }
  constructor
  · rw [train]
    rw [h]
    simp
  · rw [train]
    rw [h]
    simp only [List.nil_append]
    rw [iterEvents_flatMap_length]
    simp

/-- Helper: one loop iteration updates the model, optimizer and loss purely
from the current model and optimizer; the sink presence only touches the
writer log and the residual connector. -/
theorem trainStep_writer_indep [Add A] [Mul A] (P : RMLParts M O V S D R A)
    (dset : D) (cfg : TrainConfig A) (le : ℕ) (w1 w2 : Bool)
    (st1 st2 : TrainState M O R A) (i : ℕ)
    (hm : st1.model = st2.model) (ho : st1.opt = st2.opt) :
    (trainStep P dset cfg w1 le st1 i).model = (trainStep P dset cfg w2 le st2 i).model
    ∧ (trainStep P dset cfg w1 le st1 i).opt = (trainStep P dset cfg w2 le st2 i).opt
    ∧ (trainStep P dset cfg w1 le st1 i).lastLoss = (trainStep P dset cfg w2 le st2 i).lastLoss := by
  simp only [trainStep]
  rw [hm, ho]
  exact ⟨rfl, rfl, rfl⟩

/-- Helper: the whole loop's model, optimizer and final loss are independent
of the observability sink. -/
theorem foldl_trainStep_writer_indep [Add A] [Mul A] (P : RMLParts M O V S D R A)
    (dset : D) (cfg : TrainConfig A) (le : ℕ) (w1 w2 : Bool) :
    ∀ (l : List ℕ) (st1 st2 : TrainState M O R A),
      st1.model = st2.model → st1.opt = st2.opt → st1.lastLoss = st2.lastLoss →
      (l.foldl (trainStep P dset cfg w1 le) st1).model
          = (l.foldl (trainStep P dset cfg w2 le) st2).model
        ∧ (l.foldl (trainStep P dset cfg w1 le) st1).opt
          = (l.foldl (trainStep P dset cfg w2 le) st2).opt
        ∧ (l.foldl (trainStep P dset cfg w1 le) st1).lastLoss
          = (l.foldl (trainStep P dset cfg w2 le) st2).lastLoss := by
  intro l
  induction l with
  | nil => intro st1 st2 hm ho hl; exact ⟨hm, ho, hl⟩
  | cons x xs ih =>
    intro st1 st2 hm ho hl
    obtain ⟨hm', ho', hl'⟩ := trainStep_writer_indep P dset cfg le w1 w2 st1 st2 x hm ho
    exact ih (trainStep P dset cfg w1 le st1 x) (trainStep P dset cfg w2 le st2 x) hm' ho' hl'

/-- Helper: `train` with and without a sink agrees on model, optimizer and
final loss. -/
theorem train_writer_indep [Add A] [Mul A] (P : RMLParts M O V S D R A)
    (model : M) (dset : D) (opt : O) (cfg : TrainConfig A) (le : ℕ)
    (w1 w2 : Bool) :
    (train P model dset opt cfg w1 le).model = (train P model dset opt cfg w2 le).model
    ∧ (train P model dset opt cfg w1 le).opt = (train P model dset opt cfg w2 le).opt
    ∧ (train P model dset opt cfg w1 le).lastLoss = (train P model dset opt cfg w2 le).lastLoss := by
  rw [train, train]
  exact foldl_trainStep_writer_indep P dset cfg le w1 w2 (List.range cfg.epochs) _ _ rfl rfl rfl

/-- Helper: the fold-score list accumulated by `cross_validate` is the map of
the per-fold score over the folds, for any starting accumulator. -/
theorem foldl_cvFold_scores [Add A] [Mul A] (P : RMLParts M O V S D R A)
    (ref : M) (cfg : TrainConfig A) (hw : Bool) (le : ℕ) :
    ∀ (folds : List (D × D)) (m : M) (acc : List A),
      (folds.foldl (cvFold P ref cfg hw le) (m, acc)).2
        = acc ++ folds.map (fun fold =>
            (test P (train P ref fold.1 (P.newOptimizer cfg.lr ref) cfg hw le).model fold.2).2) := by
  intro folds
  induction folds with
  | nil => intro m acc; simp
  | cons f fs ih =>
    intro m acc
    rw [List.foldl_cons]
    show (fs.foldl (cvFold P ref cfg hw le) (cvFold P ref cfg hw le (m, acc) f)).2 = _
    rw [show cvFold P ref cfg hw le (m, acc) f
        = ((test P (train P ref f.1 (P.newOptimizer cfg.lr ref) cfg hw le).model f.2).1,
           acc ++ [(test P (train P ref f.1 (P.newOptimizer cfg.lr ref) cfg hw le).model f.2).2])
      from rfl]
    rw [ih]
    simp

/-- C2: the cross-validation driver resets the model to the saved reference
state for each fold (every per-fold score below is a function of `ref`, not
of the carried model), trains on the fold's training subset with a fresh
optimizer, evaluates the held-out negative log-likelihood — the NLL alone,
with no regularization terms — on the fold's test subset, and returns
exactly the sum of the `k` held-out scores. -/
theorem claim_C2 [Add A] [Mul A] [Zero A] (P : RMLParts M O V S D R A)
    (model0 ref : M) (cfg : TrainConfig A) (folds : List (D × D))
    (hasWriter : Bool) (logevery : ℕ) :
    cross_validate P model0 ref cfg folds hasWriter logevery
      = sumPy (folds.map fun fold =>
          P.nll_gridded (P.modelForward (P.modelEval
            (train P ref fold.1 (P.newOptimizer cfg.lr ref) cfg hasWriter logevery).model))
            fold.2) := by
  rw [cross_validate]
  show sumPy (folds.foldl (cvFold P ref cfg hasWriter logevery) (model0, [])).2 = _
  rw [foldl_cvFold_scores]
  simp [test]

/-- C9: the observability sink never feeds back into the optimization — for
every collaborator set, model, dataset, optimizer and configuration, running
the training loop with the sink attached and with it absent produces the
same final loss and the same final model parameters, and the
cross-validation driver returns the same score either way. -/
theorem claim_C9 [Add A] [Mul A] [Zero A] (P : RMLParts M O V S D R A)
    (model : M) (dset : D) (opt : O) (cfg : TrainConfig A) (logevery : ℕ) :
    (train P model dset opt cfg true logevery).lastLoss
      = (train P model dset opt cfg false logevery).lastLoss
    ∧ (train P model dset opt cfg true logevery).model
      = (train P model dset opt cfg false logevery).model
    ∧ ∀ (model0 ref : M) (folds : List (D × D)),
        cross_validate P model0 ref cfg folds true logevery
          = cross_validate P model0 ref cfg folds false logevery := by
  obtain ⟨hm, ho, hl⟩ := train_writer_indep P model dset opt cfg logevery true false
  refine ⟨hl, hm, ?_⟩
  intro model0 ref folds
  rw [cross_validate, cross_validate]
  show sumPy (folds.foldl (cvFold P ref cfg true logevery) (model0, [])).2
      = sumPy (folds.foldl (cvFold P ref cfg false logevery) (model0, [])).2
  rw [foldl_cvFold_scores, foldl_cvFold_scores]
  simp only [List.nil_append]
  refine congrArg sumPy ?_
  refine List.map_congr_left ?_
  intro fold _
  rw [(train_writer_indep P ref fold.1 (P.newOptimizer cfg.lr ref) cfg logevery true false).1]

/-- C7 (amended): a non-finite loss is neither raised nor caught inside the
training loop — the loop body contains no finiteness check or handler, so
even when some iteration's logged loss is non-finite the loop still executes
every configured iteration, and the non-finite value reaches the caller only
as the returned final-loss value, with no error object and no iteration
index attached. -/
theorem claim_C7_amended (P : RMLParts M O V S D R PyFloat) (model : M)
    (dset : D) (opt : O) (cfg : TrainConfig PyFloat) (i : ℕ)
    (_hnan : WEvent.scalar "loss" PyFloat.nan i
        ∈ (train P model dset opt cfg true 1).writerLog) :
    (train P model dset opt cfg true 1).trace
      = (List.range cfg.epochs).flatMap iterEvents
    ∧ (train P model dset opt cfg true 1).trace.length = 4 * cfg.epochs := by
  have h := foldl_trainStep_trace P dset cfg true 1 (List.range cfg.epochs)
    { model := P.modelTrain model, opt := opt
      residuals := P.residualsInit (P.modelTrain model) dset
      writerLog := [], lastLoss := none, trace := [] }
  constructor
  · rw [train]
    rw [h]
    simp
  · rw [train]
    rw [h]
    simp only [List.nil_append]
    rw [iterEvents_flatMap_length]
    simp

/-- Helper: unfolding the `PyFloat` addition instance. -/
theorem PyFloat.add_def (a b : PyFloat) :
    a + b = ⟨a.val.bind fun x => b.val.map fun y => x + y⟩ := rfl

/-- Helper: unfolding the `PyFloat` multiplication instance. -/
theorem PyFloat.mul_def (a b : PyFloat) :
    a * b = ⟨a.val.bind fun x => b.val.map fun y => x * y⟩ := rfl

/-- Helper: concrete evaluation of the three-epoch run whose loss goes NaN
from iteration 1 onwards. -/
theorem exP_run_eval :
    (train exP 0 () () exCfg true 1).writerLog
      = [WEvent.scalar "loss" ⟨some 0⟩ 0, WEvent.figure "image" 0,
         WEvent.scalar "loss" PyFloat.nan 1, WEvent.figure "image" 1,
         WEvent.scalar "loss" PyFloat.nan 2, WEvent.figure "image" 2]
    ∧ (train exP 0 () () exCfg true 1).lastLoss = some PyFloat.nan := by
  have h3 : List.range exCfg.epochs = [0, 1, 2] := by decide
  rw [train, h3]
  simp only [List.foldl_cons, List.foldl_nil]
  norm_num [exP, exCfg, trainStep, PyFloat.add_def, PyFloat.mul_def, PyFloat.nan]

/-- C7 counterexample: in the concrete three-epoch run the logged loss is
already non-finite at iteration 1, yet iteration 2 still executes (the log
reaches index 2 and the trace holds all 12 = 4·3 events), and the loop's
outcome is merely the final non-finite loss value — no error propagates,
nothing terminates the run, and no iteration index is surfaced to the
caller. -/
theorem claim_C7_counterexample :
    (train exP 0 () () exCfg true 1).writerLog
      = [WEvent.scalar "loss" ⟨some 0⟩ 0, WEvent.figure "image" 0,
         WEvent.scalar "loss" PyFloat.nan 1, WEvent.figure "image" 1,
         WEvent.scalar "loss" PyFloat.nan 2, WEvent.figure "image" 2]
    ∧ (train exP 0 () () exCfg true 1).trace.length = 4 * 3
    ∧ (train exP 0 () () exCfg true 1).lastLoss = some PyFloat.nan := by
  obtain ⟨hlog, hlast⟩ := exP_run_eval
  refine ⟨hlog, ?_, hlast⟩
  have h := foldl_trainStep_trace exP () exCfg true 1 (List.range exCfg.epochs)
    { model := exP.modelTrain 0, opt := ()
      residuals := exP.residualsInit (exP.modelTrain 0) ()
      writerLog := [], lastLoss := none, trace := [] }
  rw [train]
  rw [h]
  simp only [List.nil_append]
  rw [iterEvents_flatMap_length]
  simp [exCfg]

/-- C7 witness: the amended theorem applied to the concrete NaN run, with
the non-finite-logged-loss hypothesis discharged by evaluation. -/
theorem claim_C7_witness :
    (train exP 0 () () exCfg true 1).trace
      = (List.range exCfg.epochs).flatMap iterEvents
    ∧ (train exP 0 () () exCfg true 1).trace.length = 4 * exCfg.epochs :=
  claim_C7_amended exP 0 () () exCfg 1 (by rw [exP_run_eval.1]; simp)
